import Mathlib

/-!
Verification of the HID report decoding core of `rawinput_joystick_logger.py`.

The development shallowly embeds the decoding pipeline of the source file:
`normalize_value`, `parse_report_bytes`, `parse_hid_caps`, `decode_hid_report`,
the per-device cache with its name filter (`RawInputLogger.get_device_state`),
and the per-report loop of `RawInputLogger.handle_wm_input`.

Modelling conventions:
- Byte buffers are `List Nat`.
- Python `float` arithmetic in `normalize_value` is modelled over `ℚ`; every
  value the theorems below compute (range endpoints, `1/65535`) is produced by
  exact IEEE operations in the source, so the rational model agrees with the
  float semantics at those points.
- The opaque preparsed capability descriptor together with the `hid.dll`
  calls made on it (`HidP_GetCaps`, `HidP_GetValueCaps`, `HidP_GetButtonCaps`,
  `HidP_GetUsageValue`, `HidP_GetUsages`) is modelled as a record `Preparsed`
  of the statuses, buffers and per-report answers those calls return. The
  repository's own logic is translated from the source; the OS side stays a
  parameter, so all theorems hold for every possible OS behaviour.
-/

/-- `HIDP_STATUS_SUCCESS` from the source. -/
def HIDP_STATUS_SUCCESS : Nat := 0x00110000

/-- `USAGE_PAGE_GENERIC_DESKTOP` from the source. -/
def USAGE_PAGE_GENERIC_DESKTOP : Nat := 0x01

/-- The `AXIS_USAGE_NAMES` dict of the source: the ten fixed axis usages. -/
def AXIS_USAGE_NAMES : List (Nat × String) :=
  [(0x30, "x"), (0x31, "y"), (0x32, "z"), (0x33, "rx"), (0x34, "ry"),
   (0x35, "rz"), (0x36, "slider"), (0x37, "dial"), (0x38, "wheel"), (0x39, "hat")]

/-- Python `d[k]` / `k in d` on an association list (`dict` lookup semantics:
the unique binding of `k`, if any). -/
def assoc_get {α β : Type} [DecidableEq α] (k : α) : List (α × β) → Option β
  | [] => none
  | (k', v) :: rest => if k' = k then some v else assoc_get k rest

/-- Python `d[k] = v` on an association list: replace the existing binding in
place, otherwise append at the end (`dict` assignment semantics). -/
def dict_set {α β : Type} [DecidableEq α] (k : α) (v : β) :
    List (α × β) → List (α × β)
  | [] => [(k, v)]
  | (k', v') :: rest => if k' = k then (k, v) :: rest else (k', v') :: dict_set k v rest

/-- The fields of the source's `HIDP_CAPS` structure that the logic reads. -/
structure HIDP_CAPS where
  NumberInputValueCaps : Nat
  NumberInputButtonCaps : Nat
deriving DecidableEq, Repr

/-- The fields of the source's `HIDP_VALUE_CAPS` that `decode_hid_report`
reads. The `Range`/`NotRange` union is flattened, tagged by `IsRange`:
`UsageMin`/`UsageMax` are `u.Range.UsageMin`/`u.Range.UsageMax`, `Usage` is
`u.NotRange.Usage`. -/
structure HIDP_VALUE_CAPS where
  UsagePage : Nat
  LogicalMin : Int
  LogicalMax : Int
  IsRange : Bool
  UsageMin : Nat
  UsageMax : Nat
  Usage : Nat
deriving DecidableEq, Repr

/-- The fields of the source's `HIDP_BUTTON_CAPS` that `decode_hid_report`
reads, with the union flattened as for `HIDP_VALUE_CAPS`. -/
structure HIDP_BUTTON_CAPS where
  UsagePage : Nat
  LinkCollection : Nat
  IsRange : Bool
  UsageMin : Nat
  UsageMax : Nat
  Usage : Nat
deriving DecidableEq, Repr

/-- The opaque preparsed descriptor, together with the behaviour of every
`hid.dll` call the source makes on it.  `valueBuffer`/`buttonBuffer` and the
two counts model the array contents and returned element counts after
`HidP_GetValueCaps`/`HidP_GetButtonCaps`; `getUsageValue report page usage`
models `HidP_GetUsageValue` (`none` = non-success status); `getUsages report
page link maxUsages` models a successful `HidP_GetUsages` answer (the source
returns `[]` itself on a non-success status, which the model reaches with an
empty answer). -/
structure Preparsed where
  getCapsStatus : Nat
  caps : HIDP_CAPS
  getValueCapsStatus : Nat
  valueBuffer : List HIDP_VALUE_CAPS
  valueCount : Nat
  getButtonCapsStatus : Nat
  buttonBuffer : List HIDP_BUTTON_CAPS
  buttonCount : Nat
  getUsageValue : List Nat → Nat → Nat → Option Nat
  getUsages : List Nat → Nat → Nat → Nat → List Nat

/-- `_check_hidp` from the source (the unused `label` argument is dropped). -/
def _check_hidp (status : Nat) : Bool := status = HIDP_STATUS_SUCCESS

/-- `parse_hid_caps` from the source: fail wholesale if `HidP_GetCaps` fails;
otherwise retrieve the value-capability and button-capability arrays (each
allocated with its `NumberInput*Caps` size and truncated to the returned
count), emptying exactly the table whose query reported a non-success
status. -/
def parse_hid_caps (p : Preparsed) :
    Option (HIDP_CAPS × List HIDP_VALUE_CAPS × List HIDP_BUTTON_CAPS) :=
  if ¬ _check_hidp p.getCapsStatus then none
  else
    let value_caps :=
      if ¬ _check_hidp p.getValueCapsStatus then []
      else (p.valueBuffer.take p.caps.NumberInputValueCaps).take p.valueCount
    let button_caps :=
      if ¬ _check_hidp p.getButtonCapsStatus then []
      else (p.buttonBuffer.take p.caps.NumberInputButtonCaps).take p.buttonCount
    some (p.caps, value_caps, button_caps)

/-- `normalize_value` from the source, with Python `float` modelled by `ℚ`. -/
def normalize_value (value logical_min logical_max : Int) : Option ℚ :=
  if logical_max = logical_min then none
  else
    let span : ℚ := (logical_max : ℚ) - (logical_min : ℚ)
    if logical_min < 0 then
      some ((((value : ℚ) - (logical_min : ℚ)) / span) * 2 - 1)
    else
      some (((value : ℚ) - (logical_min : ℚ)) / span)

/-- `hid_get_usage_value` from the source: delegate to the descriptor-driven
OS call (the `report_len` argument is the report's length, already implied by
the report list). -/
def hid_get_usage_value (p : Preparsed) (report : List Nat)
    (usage_page usage : Nat) : Option Nat :=
  p.getUsageValue report usage_page usage

/-- `hid_get_usages` from the source: delegate to the descriptor-driven OS
call. -/
def hid_get_usages (p : Preparsed) (report : List Nat)
    (usage_page link_collection max_usages : Nat) : List Nat :=
  p.getUsages report usage_page link_collection max_usages

/-- One axis entry of the `axes` dict built by `decode_hid_report`:
`{"raw": value, "norm": norm, "min": cap.LogicalMin, "max": cap.LogicalMax}`. -/
structure AxisReading where
  raw : Nat
  norm : Option ℚ
  min : Int
  max : Int
deriving DecidableEq, Repr

/-- The usage ids a value capability covers: Python's
`range(UsageMin, UsageMax + 1)` for a range capability, else the single
`NotRange.Usage`. -/
def value_cap_usages (cap : HIDP_VALUE_CAPS) : List Nat :=
  if cap.IsRange then List.range' cap.UsageMin (cap.UsageMax + 1 - cap.UsageMin)
  else [cap.Usage]

/-- The body of the inner usage loop of `decode_hid_report`: for one usage of
a value capability, skip it unless it appears in `AXIS_USAGE_NAMES` and the
OS yields its raw value, otherwise store an `AxisReading` under the axis's
fixed name. -/
def decode_axis_usage (report : List Nat) (p : Preparsed)
    (cap : HIDP_VALUE_CAPS) (axes : List (String × AxisReading)) (usage : Nat) :
    List (String × AxisReading) :=
  match assoc_get usage AXIS_USAGE_NAMES with
  | none => axes
  | some name =>
    match hid_get_usage_value p report cap.UsagePage usage with
    | none => axes
    | some value =>
      dict_set name
        ⟨value, normalize_value (value : Int) cap.LogicalMin cap.LogicalMax,
         cap.LogicalMin, cap.LogicalMax⟩ axes

/-- The body of the first loop of `decode_hid_report` for one value
capability: skip capabilities off the generic-desktop page, then run
`decode_axis_usage` over every usage the capability covers. -/
def decode_value_cap (report : List Nat) (p : Preparsed)
    (cap : HIDP_VALUE_CAPS) (axes : List (String × AxisReading)) :
    List (String × AxisReading) :=
  if cap.UsagePage ≠ USAGE_PAGE_GENERIC_DESKTOP then axes
  else (value_cap_usages cap).foldl (decode_axis_usage report p cap) axes

/-- The body of the second loop of `decode_hid_report` for one button
capability: the usage span (as a Python `int`, possibly non-positive for a
malformed range), skipped when `≤ 0`, else the asserted usages returned by
the OS. -/
def decode_button_cap (report : List Nat) (p : Preparsed)
    (cap : HIDP_BUTTON_CAPS) : List Nat :=
  let max_usages : Int :=
    if cap.IsRange then (cap.UsageMax : Int) - (cap.UsageMin : Int) + 1 else 1
  if max_usages ≤ 0 then []
  else hid_get_usages p report cap.UsagePage cap.LinkCollection max_usages.toNat

/-- Python's `sorted(set(l))` on integer lists. -/
def py_sorted_set (l : List Nat) : List Nat := l.toFinset.sort (· ≤ ·)

/-- `decode_hid_report` from the source: build the axes dict from the value
capabilities, concatenate the asserted usages of all button capabilities, and
return them as `sorted(set(buttons))`. -/
def decode_hid_report (report : List Nat) (p : Preparsed)
    (value_caps : List HIDP_VALUE_CAPS) (button_caps : List HIDP_BUTTON_CAPS) :
    List (String × AxisReading) × List Nat :=
  let axes := value_caps.foldl (fun a c => decode_value_cap report p c a) []
  let buttons := button_caps.foldl (fun b c => b ++ decode_button_cap report p c) []
  (axes, py_sorted_set buttons)

/-- `parse_report_bytes` from the source: for `idx in range(count)`, append
`data[idx*report_size : idx*report_size + report_size]` whenever the slice's
end does not exceed the blob's length. -/
def parse_report_bytes (data : List Nat) (report_size count : Nat) :
    List (List Nat) :=
  (List.range count).foldl
    (fun reports idx =>
      if idx * report_size + report_size ≤ data.length then
        reports ++ [(data.drop (idx * report_size)).take report_size]
      else reports)
    []

/-! ### Helper lemmas about `parse_report_bytes` -/

theorem parse_report_bytes_succ (data : List Nat) (s c : Nat) :
    parse_report_bytes data s (c + 1) =
      parse_report_bytes data s c ++
        (if c * s + s ≤ data.length then [(data.drop (c * s)).take s] else []) := by
  unfold parse_report_bytes
  rw [List.range_succ, List.foldl_append]
  simp only [List.foldl_cons, List.foldl_nil]
  split <;> simp

theorem parse_report_bytes_eq_map (data : List Nat) (s c : Nat) (hs : 0 < s) :
    parse_report_bytes data s c =
      (List.range (min c (data.length / s))).map
        (fun i => (data.drop (i * s)).take s) := by
  induction c with
  | zero => simp [parse_report_bytes]
  | succ c ih =>
    rw [parse_report_bytes_succ, ih]
    by_cases h : c < data.length / s
    · have hc : c + 1 ≤ data.length / s := h
      have hmul : (c + 1) * s ≤ data.length :=
        (Nat.le_div_iff_mul_le hs).mp hc
      have hcond : c * s + s ≤ data.length := by
        calc c * s + s = (c + 1) * s := by ring
          _ ≤ data.length := hmul
      rw [if_pos hcond, Nat.min_eq_left hc,
          Nat.min_eq_left (Nat.le_of_lt h), List.range_succ, List.map_append]
      simp
    · have hd : data.length / s ≤ c := Nat.le_of_not_lt h
      have hcond : ¬ c * s + s ≤ data.length := by
        intro hle
        have : (c + 1) * s ≤ data.length := by
          calc (c + 1) * s = c * s + s := by ring
            _ ≤ data.length := hle
        exact h (Nat.lt_of_succ_le ((Nat.le_div_iff_mul_le hs).mpr this))
      rw [if_neg hcond, Nat.min_eq_right hd,
          Nat.min_eq_right (Nat.le_succ_of_le hd)]
      simp

/-- C1 (amended part): for a positive report size, `parse_report_bytes`
returns exactly `min count (len / report_size)` slices, slice `i` being
`data[i*report_size : (i+1)*report_size]`, of length `report_size`. -/
theorem parse_report_bytes_segments (data : List Nat) (s c : Nat) (hs : 0 < s) :
    (parse_report_bytes data s c).length = min c (data.length / s) ∧
    ∀ i (hi : i < (parse_report_bytes data s c).length),
      (parse_report_bytes data s c).get ⟨i, hi⟩ = (data.drop (i * s)).take s ∧
      ((parse_report_bytes data s c).get ⟨i, hi⟩).length = s := by
  have hmap := parse_report_bytes_eq_map data s c hs
  have hlen : (parse_report_bytes data s c).length = min c (data.length / s) := by
    rw [hmap]; simp
  refine ⟨hlen, ?_⟩
  intro i hi
  have hilt : i < min c (data.length / s) := hlen ▸ hi
  have hidx : i < data.length / s := lt_of_lt_of_le hilt (Nat.min_le_right _ _)
  have hget : (parse_report_bytes data s c).get ⟨i, hi⟩ =
      (data.drop (i * s)).take s := by
    have key : ∀ (l : List (List Nat))
        (hl : l = (List.range (min c (data.length / s))).map
          (fun j => (data.drop (j * s)).take s))
        (hi' : i < l.length), l.get ⟨i, hi'⟩ = (data.drop (i * s)).take s := by
      intro l hl hi'
      subst hl
      simp
    exact key _ hmap hi
  refine ⟨hget, ?_⟩
  rw [hget]
  have hfit : i * s + s ≤ data.length := by
    have : (i + 1) * s ≤ data.length := (Nat.le_div_iff_mul_le hs).mp hidx
    calc i * s + s = (i + 1) * s := by ring
      _ ≤ data.length := this
  have hdroplen : s ≤ (data.drop (i * s)).length := by
    rw [List.length_drop]
    omega
  simp [List.length_take]
  omega

/-- C1 counterexample: with `report_size = 0` the source returns `count`
(empty) slices — here 3 — while the claimed formula
`min count (len / report_size)` gives `min 3 (1 / 0) = 0`. -/
theorem parse_report_bytes_size_zero :
    (parse_report_bytes [7] 0 3).length ≠ min 3 (([7] : List Nat).length / 0) := by
  decide

/-- C1 witness for `parse_report_bytes_segments`: a 5-byte blob with
report size 2 and requested count 10 yields `min 10 (5 / 2) = 2` slices. -/
theorem parse_report_bytes_segments_witness :
    (parse_report_bytes [1, 2, 3, 4, 5] 2 10).length =
      min 10 (([1, 2, 3, 4, 5] : List Nat).length / 2) :=
  (parse_report_bytes_segments [1, 2, 3, 4, 5] 2 10 (by decide)).1

/-- C3: `normalize_value` maps range endpoints exactly: for
`logical_min < 0 ≤ logical_max` the endpoints go to `-1` and `1` and the
midpoint to `0`; for `0 ≤ logical_min < logical_max` the endpoints go to `0`
and `1`. -/
theorem normalize_value_endpoints (lmin lmax : Int) :
    (lmin < 0 → 0 ≤ lmax →
      normalize_value lmin lmin lmax = some (-1) ∧
      normalize_value lmax lmin lmax = some 1 ∧
      ∀ v : Int, 2 * v = lmin + lmax → normalize_value v lmin lmax = some 0) ∧
    (0 ≤ lmin → lmin < lmax →
      normalize_value lmin lmin lmax = some 0 ∧
      normalize_value lmax lmin lmax = some 1) := by
  constructor
  · intro hneg hpos
    have hne : lmax ≠ lmin := by omega
    have hspan : (lmax : ℚ) - (lmin : ℚ) ≠ 0 := by
      intro h
      have : (lmax : ℚ) = (lmin : ℚ) := by linarith
      exact hne (by exact_mod_cast this)
    refine ⟨?_, ?_, ?_⟩
    · unfold normalize_value
      rw [if_neg hne, if_pos hneg]
      norm_num
    · unfold normalize_value
      rw [if_neg hne, if_pos hneg]
      rw [div_self hspan]
      norm_num
    · intro v hmid
      unfold normalize_value
      rw [if_neg hne, if_pos hneg]
      have hmidq : 2 * (v : ℚ) = (lmin : ℚ) + (lmax : ℚ) := by
        exact_mod_cast congrArg (fun z : Int => (z : ℚ)) hmid
      have : ((v : ℚ) - (lmin : ℚ)) / ((lmax : ℚ) - (lmin : ℚ)) * 2 - 1 = 0 := by
        field_simp
        linarith
      rw [this]
  · intro hge hlt
    have hne : lmax ≠ lmin := by omega
    have hnneg : ¬ lmin < 0 := by omega
    have hspan : (lmax : ℚ) - (lmin : ℚ) ≠ 0 := by
      intro h
      have : (lmax : ℚ) = (lmin : ℚ) := by linarith
      exact hne (by exact_mod_cast this)
    constructor
    · unfold normalize_value
      rw [if_neg hne, if_neg hnneg]
      norm_num
    · unfold normalize_value
      rw [if_neg hne, if_neg hnneg]
      rw [div_self hspan]

/-- C3 witness: `normalize_value` evaluated on the signed range `[-2, 2]`
(endpoints and midpoint) and on the unsigned range `[0, 4]` (endpoints). -/
theorem normalize_value_endpoints_witness :
    normalize_value (-2) (-2) 2 = some (-1) ∧
    normalize_value 2 (-2) 2 = some 1 ∧
    normalize_value 0 (-2) 2 = some 0 ∧
    normalize_value 0 0 4 = some 0 ∧
    normalize_value 4 0 4 = some 1 := by
  obtain ⟨hsigned, hunsigned⟩ := normalize_value_endpoints (-2) 2
  obtain ⟨hs1, hs2, hs3⟩ := hsigned (by decide) (by decide)
  obtain ⟨hu1, hu2⟩ := (normalize_value_endpoints 0 4).2 (by decide) (by decide)
  exact ⟨hs1, hs2, hs3 0 (by decide), hu1, hu2⟩

/-! ### Helper lemmas about association lists -/

theorem assoc_get_dict_set_self {α β : Type} [DecidableEq α] (k : α) (v : β) :
    ∀ m : List (α × β), assoc_get k (dict_set k v m) = some v := by
  intro m
  induction m with
  | nil => simp [dict_set, assoc_get]
  | cons hd tl ih =>
    obtain ⟨k', v'⟩ := hd
    by_cases h : k' = k
    · simp [dict_set, assoc_get, h]
    · simp [dict_set, assoc_get, h, ih]

theorem mem_dict_set {α β : Type} [DecidableEq α] {kv : α × β} {k : α} {v : β} :
    ∀ {m : List (α × β)}, kv ∈ dict_set k v m → kv.1 = k ∨ kv ∈ m := by
  intro m
  induction m with
  | nil =>
    intro h
    simp [dict_set] at h
    left
    rw [h]
  | cons hd tl ih =>
    obtain ⟨k', v'⟩ := hd
    by_cases h : k' = k
    · simp only [dict_set, if_pos h]
      intro hmem
      rcases List.mem_cons.mp hmem with h1 | h1
      · left; rw [h1]
      · right; exact List.mem_cons_of_mem _ h1
    · simp only [dict_set, if_neg h]
      intro hmem
      rcases List.mem_cons.mp hmem with h1 | h1
      · right; rw [h1]; exact List.mem_cons_self _ _
      · rcases ih h1 with h2 | h2
        · left; exact h2
        · right; exact List.mem_cons_of_mem _ h2

theorem assoc_get_mem_map_snd {α β : Type} [DecidableEq α] {k : α} {b : β} :
    ∀ {t : List (α × β)}, assoc_get k t = some b → b ∈ t.map Prod.snd := by
  intro t
  induction t with
  | nil => intro h; simp [assoc_get] at h
  | cons hd tl ih =>
    obtain ⟨k', v'⟩ := hd
    intro h
    rw [List.map_cons]
    by_cases hk : k' = k
    · have hb : v' = b := by
        have h' := h
        simp [assoc_get, hk] at h'
        exact h'
      exact hb ▸ List.mem_cons_self _ _
    · have hb : assoc_get k tl = some b := by
        have h' := h
        simp only [assoc_get, if_neg hk] at h'
        exact h'
      exact List.mem_cons_of_mem _ (ih hb)

theorem value_cap_usages_single {cap : HIDP_VALUE_CAPS}
    (h : cap.IsRange = false) : value_cap_usages cap = [cap.Usage] := by
  unfold value_cap_usages
  rw [h]
  simp

/-! ### Helper lemmas about the axes dict built by `decode_hid_report` -/

theorem mem_decode_axis_usage {report : List Nat} {p : Preparsed}
    {cap : HIDP_VALUE_CAPS} {axes : List (String × AxisReading)} {u : Nat}
    {kv : String × AxisReading} :
    kv ∈ decode_axis_usage report p cap axes u →
    kv ∈ axes ∨ kv.1 ∈ AXIS_USAGE_NAMES.map Prod.snd := by
  unfold decode_axis_usage
  cases hn : assoc_get u AXIS_USAGE_NAMES with
  | none => exact fun h => Or.inl h
  | some name =>
    cases hv : hid_get_usage_value p report cap.UsagePage u with
    | none => exact fun h => Or.inl h
    | some value =>
      intro h
      rcases mem_dict_set h with h1 | h1
      · right
        rw [h1]
        exact assoc_get_mem_map_snd hn
      · left
        exact h1

theorem mem_decode_axis_usage_fold {report : List Nat} {p : Preparsed}
    {cap : HIDP_VALUE_CAPS} {kv : String × AxisReading} :
    ∀ (usages : List Nat) (axes : List (String × AxisReading)),
      kv ∈ usages.foldl (decode_axis_usage report p cap) axes →
      kv ∈ axes ∨ kv.1 ∈ AXIS_USAGE_NAMES.map Prod.snd := by
  intro usages
  induction usages with
  | nil => intro axes h; exact Or.inl h
  | cons u us ih =>
    intro axes h
    simp only [List.foldl_cons] at h
    rcases ih _ h with h1 | h1
    · exact mem_decode_axis_usage h1
    · exact Or.inr h1

theorem mem_decode_value_cap {report : List Nat} {p : Preparsed}
    {cap : HIDP_VALUE_CAPS} {axes : List (String × AxisReading)}
    {kv : String × AxisReading} :
    kv ∈ decode_value_cap report p cap axes →
    kv ∈ axes ∨ kv.1 ∈ AXIS_USAGE_NAMES.map Prod.snd := by
  unfold decode_value_cap
  split
  · exact fun h => Or.inl h
  · exact mem_decode_axis_usage_fold _ _

theorem mem_decode_axes_fold {report : List Nat} {p : Preparsed}
    {kv : String × AxisReading} :
    ∀ (value_caps : List HIDP_VALUE_CAPS) (axes : List (String × AxisReading)),
      kv ∈ value_caps.foldl (fun a c => decode_value_cap report p c a) axes →
      kv ∈ axes ∨ kv.1 ∈ AXIS_USAGE_NAMES.map Prod.snd := by
  intro value_caps
  induction value_caps with
  | nil => intro axes h; exact Or.inl h
  | cons c cs ih =>
    intro axes h
    simp only [List.foldl_cons] at h
    rcases ih _ h with h1 | h1
    · exact mem_decode_value_cap h1
    · exact Or.inr h1

theorem decode_hid_report_axes_append (report : List Nat) (p : Preparsed)
    (l : List HIDP_VALUE_CAPS) (c : HIDP_VALUE_CAPS)
    (button_caps : List HIDP_BUTTON_CAPS) :
    (decode_hid_report report p (l ++ [c]) button_caps).1 =
      decode_value_cap report p c (decode_hid_report report p l button_caps).1 := by
  unfold decode_hid_report
  simp [List.foldl_append]

/-! ### Claim theorems about `decode_hid_report` -/

theorem py_sorted_set_sorted (l : List Nat) :
    List.Sorted (· < ·) (py_sorted_set l) :=
  Finset.sort_sorted_lt _

theorem py_sorted_set_nodup (l : List Nat) : (py_sorted_set l).Nodup :=
  Finset.sort_nodup _ _

/-- C2: for every report buffer, every combination of button capabilities
(overlapping ranges included) and every OS behaviour, the buttons component
of `decode_hid_report` is strictly ascending and duplicate-free. -/
theorem decode_hid_report_buttons_sorted_nodup (report : List Nat)
    (p : Preparsed) (value_caps : List HIDP_VALUE_CAPS)
    (button_caps : List HIDP_BUTTON_CAPS) :
    List.Sorted (· < ·) (decode_hid_report report p value_caps button_caps).2 ∧
    (decode_hid_report report p value_caps button_caps).2.Nodup := by
  unfold decode_hid_report
  exact ⟨py_sorted_set_sorted _, py_sorted_set_nodup _⟩

/-- C5: the axes dict of `decode_hid_report` only ever holds the ten fixed
axis names as keys; a value capability off the generic-desktop page, or a
single-usage capability whose usage is not in the axis table, contributes
nothing; and the last capability that yields a reading for a name determines
that name's entry (last-parsed-wins). -/
theorem decode_hid_report_axes_names_last_wins (report : List Nat)
    (p : Preparsed) (button_caps : List HIDP_BUTTON_CAPS) :
    (∀ (value_caps : List HIDP_VALUE_CAPS) (kv : String × AxisReading),
      kv ∈ (decode_hid_report report p value_caps button_caps).1 →
      kv.1 ∈ AXIS_USAGE_NAMES.map Prod.snd) ∧
    (∀ (l : List HIDP_VALUE_CAPS) (c : HIDP_VALUE_CAPS),
      c.UsagePage ≠ USAGE_PAGE_GENERIC_DESKTOP →
      (decode_hid_report report p (l ++ [c]) button_caps).1 =
        (decode_hid_report report p l button_caps).1) ∧
    (∀ (l : List HIDP_VALUE_CAPS) (c : HIDP_VALUE_CAPS),
      c.IsRange = false → assoc_get c.Usage AXIS_USAGE_NAMES = none →
      (decode_hid_report report p (l ++ [c]) button_caps).1 =
        (decode_hid_report report p l button_caps).1) ∧
    (∀ (l : List HIDP_VALUE_CAPS) (c : HIDP_VALUE_CAPS) (name : String) (v : Nat),
      c.UsagePage = USAGE_PAGE_GENERIC_DESKTOP → c.IsRange = false →
      assoc_get c.Usage AXIS_USAGE_NAMES = some name →
      p.getUsageValue report c.UsagePage c.Usage = some v →
      assoc_get name (decode_hid_report report p (l ++ [c]) button_caps).1 =
        some ⟨v, normalize_value (v : Int) c.LogicalMin c.LogicalMax,
              c.LogicalMin, c.LogicalMax⟩) := by
  refine ⟨?_, ?_, ?_, ?_⟩
  · intro value_caps kv h
    have h' : kv ∈ value_caps.foldl (fun a c => decode_value_cap report p c a) [] := h
    rcases mem_decode_axes_fold value_caps [] h' with h1 | h1
    · simp at h1
    · exact h1
  · intro l c hpage
    rw [decode_hid_report_axes_append]
    unfold decode_value_cap
    rw [if_pos hpage]
  · intro l c hrange hnone
    rw [decode_hid_report_axes_append]
    unfold decode_value_cap
    split
    · rfl
    · rw [value_cap_usages_single hrange]
      simp only [List.foldl_cons, List.foldl_nil]
      unfold decode_axis_usage
      rw [hnone]
  · intro l c name v hpage hrange hname hval
    rw [decode_hid_report_axes_append]
    unfold decode_value_cap
    rw [if_neg (by rw [hpage]; exact fun h => h rfl)]
    rw [value_cap_usages_single hrange]
    simp only [List.foldl_cons, List.foldl_nil]
    unfold decode_axis_usage
    rw [hname]
    unfold hid_get_usage_value
    rw [hval]
    exact assoc_get_dict_set_self _ _ _

theorem decode_axis_usage_found {report : List Nat} {p : Preparsed}
    {cap : HIDP_VALUE_CAPS} {axes : List (String × AxisReading)} {u : Nat}
    {name : String} {v : Nat}
    (hname : assoc_get u AXIS_USAGE_NAMES = some name)
    (hv : hid_get_usage_value p report cap.UsagePage u = some v) :
    decode_axis_usage report p cap axes u =
      dict_set name
        ⟨v, normalize_value (v : Int) cap.LogicalMin cap.LogicalMax,
         cap.LogicalMin, cap.LogicalMax⟩ axes := by
  unfold decode_axis_usage
  simp only [hname, hv]

/-- Shared example OS behaviour: every capability query succeeds with empty
tables, `HidP_GetUsageValue` always yields `v`, `HidP_GetUsages` yields
nothing. -/
def pre_const (v : Nat) : Preparsed :=
  { getCapsStatus := HIDP_STATUS_SUCCESS, caps := ⟨0, 0⟩,
    getValueCapsStatus := HIDP_STATUS_SUCCESS, valueBuffer := [], valueCount := 0,
    getButtonCapsStatus := HIDP_STATUS_SUCCESS, buttonBuffer := [], buttonCount := 0,
    getUsageValue := fun _ _ _ => some v,
    getUsages := fun _ _ _ _ => [] }

/-- C5 witness: two single-usage value capabilities for usage `0x31` (`"y"`),
the later one with logical range `[0, 100]`; the decoded `"y"` entry carries
the later capability's range. -/
theorem decode_hid_report_axes_last_wins_witness :
    assoc_get "y"
      (decode_hid_report [] (pre_const 5)
        ([{ UsagePage := 1, LogicalMin := 0, LogicalMax := 10, IsRange := false,
            UsageMin := 0, UsageMax := 0, Usage := 0x31 }] ++
         [{ UsagePage := 1, LogicalMin := 0, LogicalMax := 100, IsRange := false,
            UsageMin := 0, UsageMax := 0, Usage := 0x31 }]) []).1 =
      some ⟨5, normalize_value ((5 : Nat) : Int) 0 100, 0, 100⟩ :=
  (decode_hid_report_axes_names_last_wins [] (pre_const 5) []).2.2.2
    [{ UsagePage := 1, LogicalMin := 0, LogicalMax := 10, IsRange := false,
       UsageMin := 0, UsageMax := 0, Usage := 0x31 }]
    { UsagePage := 1, LogicalMin := 0, LogicalMax := 100, IsRange := false,
      UsageMin := 0, UsageMax := 0, Usage := 0x31 }
    "y" 5 rfl rfl (by decide) rfl

/-- A single-usage x-axis value capability with a degenerate logical range. -/
def degenerate_x_cap (m : Int) : HIDP_VALUE_CAPS :=
  { UsagePage := USAGE_PAGE_GENERIC_DESKTOP, LogicalMin := m, LogicalMax := m,
    IsRange := false, UsageMin := 0, UsageMax := 0, Usage := 0x30 }

/-- C8: a degenerate logical range (`logical_max == logical_min`) makes
`normalize_value` return `none` for every value, yet `decode_hid_report`
still records the axis's `AxisReading` with its raw value and an absent
norm. -/
theorem normalize_degenerate_still_recorded (v : Nat) (m : Int)
    (report : List Nat) (p : Preparsed)
    (hval : p.getUsageValue report USAGE_PAGE_GENERIC_DESKTOP 0x30 = some v) :
    (∀ value : Int, normalize_value value m m = none) ∧
    assoc_get "x" (decode_hid_report report p [degenerate_x_cap m] []).1 =
      some ⟨v, none, m, m⟩ := by
  have hnorm : ∀ value : Int, normalize_value value m m = none := by
    intro value
    unfold normalize_value
    simp
  refine ⟨hnorm, ?_⟩
  have h1 : (decode_hid_report report p [degenerate_x_cap m] []).1 =
      decode_value_cap report p (degenerate_x_cap m) [] := rfl
  rw [h1]
  unfold decode_value_cap
  rw [if_neg (fun h => h rfl)]
  rw [value_cap_usages_single rfl]
  simp only [List.foldl_cons, List.foldl_nil]
  rw [decode_axis_usage_found
    (show assoc_get (degenerate_x_cap m).Usage AXIS_USAGE_NAMES = some "x" from rfl)
    (show hid_get_usage_value p report (degenerate_x_cap m).UsagePage
      (degenerate_x_cap m).Usage = some v from hval)]
  show assoc_get "x"
      (dict_set "x"
        ({ raw := v, norm := normalize_value (v : Int) m m,
           min := m, max := m } : AxisReading) []) =
    some { raw := v, norm := none, min := m, max := m }
  rw [hnorm ((v : Int))]
  rw [assoc_get_dict_set_self]

/-- C8 witness: value 7 on the degenerate range `[3, 3]` is recorded raw with
an absent norm. -/
theorem normalize_degenerate_still_recorded_witness :
    (∀ value : Int, normalize_value value 3 3 = none) ∧
    assoc_get "x" (decode_hid_report [] (pre_const 7) [degenerate_x_cap 3]
      []).1 = some ⟨7, none, 3, 3⟩ :=
  normalize_degenerate_still_recorded 7 3 [] (pre_const 7) rfl

/-- C9 counterexample: for `logical_min = -32768`, `logical_max = 32767` and
raw value `0` the normalized value is `+1/65535` — strictly positive, not the
claimed negative `≈ -0.0000152`. -/
theorem normalize_x_center_is_positive :
    normalize_value 0 (-32768) 32767 = some (1 / 65535) ∧
    (0 : ℚ) < 1 / 65535 := by
  constructor
  · unfold normalize_value
    norm_num
  · norm_num

/-- A single-usage x-axis value capability with logical range
`[-32768, 32767]`. -/
def x_full_range_cap : HIDP_VALUE_CAPS :=
  { UsagePage := USAGE_PAGE_GENERIC_DESKTOP, LogicalMin := -32768,
    LogicalMax := 32767, IsRange := false, UsageMin := 0, UsageMax := 0,
    Usage := 0x30 }

/-- C9 (amended): with usage `0x30` (`"x"`), logical range `[-32768, 32767]`
and raw value `0`, the decoded `"x"` entry is
`{raw: 0, norm: +1/65535, min: -32768, max: 32767}`. -/
theorem decode_x_center_reading :
    assoc_get "x"
      (decode_hid_report [0, 0] (pre_const 0) [x_full_range_cap] []).1 =
      some ⟨0, some (1 / 65535), -32768, 32767⟩ := by
  have h1 : (decode_hid_report [0, 0] (pre_const 0) [x_full_range_cap] []).1 =
      decode_value_cap [0, 0] (pre_const 0) x_full_range_cap [] := rfl
  rw [h1]
  unfold decode_value_cap
  rw [if_neg (fun h => h rfl)]
  rw [value_cap_usages_single rfl]
  simp only [List.foldl_cons, List.foldl_nil]
  rw [decode_axis_usage_found
    (show assoc_get x_full_range_cap.Usage AXIS_USAGE_NAMES = some "x" from rfl)
    (show hid_get_usage_value (pre_const 0) [0, 0] x_full_range_cap.UsagePage
      x_full_range_cap.Usage = some 0 from rfl)]
  show assoc_get "x"
      (dict_set "x"
        ({ raw := 0, norm := normalize_value ((0 : Nat) : Int) (-32768) 32767,
           min := -32768, max := 32767 } : AxisReading) []) =
    some { raw := 0, norm := some (1 / 65535), min := -32768, max := 32767 }
  rw [assoc_get_dict_set_self]
  have hn : normalize_value ((0 : Nat) : Int) (-32768) 32767 =
      some (1 / 65535) := by
    unfold normalize_value
    norm_num
  rw [hn]

/-- OS behaviour where `HidP_GetValueCaps` reports a non-success status while
`HidP_GetCaps` and `HidP_GetButtonCaps` succeed, the latter returning one
button capability. -/
def pre_value_fail : Preparsed :=
  { getCapsStatus := HIDP_STATUS_SUCCESS, caps := ⟨1, 1⟩,
    getValueCapsStatus := 0, valueBuffer := [], valueCount := 0,
    getButtonCapsStatus := HIDP_STATUS_SUCCESS,
    buttonBuffer := [⟨9, 0, true, 1, 8, 0⟩], buttonCount := 1,
    getUsageValue := fun _ _ _ => none, getUsages := fun _ _ _ _ => [] }

/-- C6 counterexample: when only the value-capability query fails,
`parse_hid_caps` still returns the retrieved button-capability table (here
one entry) — not "no tables at all". -/
theorem parse_hid_caps_value_fail_keeps_buttons :
    _check_hidp pre_value_fail.getValueCapsStatus = false ∧
    (parse_hid_caps pre_value_fail).map (fun r => (r.2.1, r.2.2)) =
      some ([], [⟨9, 0, true, 1, 8, 0⟩]) := by
  constructor
  · rfl
  · rfl

/-- C6 (amended): a `HidP_GetCaps` failure yields no result at all; a failure
of the value-capability (resp. button-capability) query empties exactly that
table, while the other table is still retrieved normally. -/
theorem parse_hid_caps_per_table_failure (p : Preparsed) :
    (_check_hidp p.getCapsStatus = false → parse_hid_caps p = none) ∧
    (_check_hidp p.getCapsStatus = true →
     _check_hidp p.getValueCapsStatus = false →
      parse_hid_caps p = some (p.caps, [],
        if ¬ _check_hidp p.getButtonCapsStatus then []
        else (p.buttonBuffer.take p.caps.NumberInputButtonCaps).take
          p.buttonCount)) ∧
    (_check_hidp p.getCapsStatus = true →
     _check_hidp p.getButtonCapsStatus = false →
      parse_hid_caps p = some (p.caps,
        (if ¬ _check_hidp p.getValueCapsStatus then []
         else (p.valueBuffer.take p.caps.NumberInputValueCaps).take
           p.valueCount), [])) := by
  refine ⟨?_, ?_, ?_⟩
  · intro h
    simp [parse_hid_caps, h]
  · intro h1 h2
    simp [parse_hid_caps, h1, h2]
  · intro h1 h2
    simp [parse_hid_caps, h1, h2]

/-- C6 witness: on `pre_value_fail` the amended statement yields the empty
value table next to the one-entry button table. -/
theorem parse_hid_caps_per_table_failure_witness :
    parse_hid_caps pre_value_fail = some (⟨1, 1⟩, [],
      if ¬ _check_hidp pre_value_fail.getButtonCapsStatus then []
      else (pre_value_fail.buttonBuffer.take
        pre_value_fail.caps.NumberInputButtonCaps).take
        pre_value_fail.buttonCount) :=
  (parse_hid_caps_per_table_failure pre_value_fail).2.1 rfl rfl

/-! ### The logger: device-state cache, name filter, per-report loop -/

/-- Python's `str.lower()` (per-character lowering, as used on device names
and the filter string). -/
def py_lower (s : String) : String := String.mk (s.data.map Char.toLower)

/-- Python's `needle in hay` on strings: contiguous substring test. -/
def py_substring (needle hay : String) : Bool :=
  hay.data.tails.any (fun t => needle.data.isPrefixOf t)

/-- `RawInputLogger._match_filter` from the source: no filter (or the falsy
empty string) matches everything, otherwise the lowercased filter must occur
in the lowercased name. -/
def _match_filter (device_filter : Option String) (name : String) : Bool :=
  match device_filter with
  | none => true
  | some f => if f = "" then true else py_substring f (py_lower name)

/-- The OS-provided per-handle queries `DeviceState.__init__` performs:
`get_device_name`, `get_device_info` (its HID usage page/usage pair) and
`get_preparsed_data`. -/
structure OsEnv where
  get_device_name : Nat → String
  get_device_info : Nat → Option (Nat × Nat)
  get_preparsed_data : Nat → Option Preparsed

/-- The `DeviceState` object of the source: name, identity, preparsed
descriptor and the capability tables filled in by `parse_hid_caps`. -/
structure DeviceState where
  handle : Nat
  name : String
  info : Option (Nat × Nat)
  preparsed : Option Preparsed
  caps : Option HIDP_CAPS
  value_caps : List HIDP_VALUE_CAPS
  button_caps : List HIDP_BUTTON_CAPS

/-- `DeviceState.__init__` from the source: resolve name, info and preparsed
data once; when the preparsed data is present and `parse_hid_caps` succeeds,
take its tables, else leave them empty. -/
def DeviceState.create (env : OsEnv) (h : Nat) : DeviceState :=
  let pre := env.get_preparsed_data h
  let parsed := match pre with
    | none => none
    | some p => parse_hid_caps p
  { handle := h
    name := env.get_device_name h
    info := env.get_device_info h
    preparsed := pre
    caps := match parsed with | some (c, _, _) => some c | none => none
    value_caps := match parsed with | some (_, v, _) => v | none => []
    button_caps := match parsed with | some (_, _, b) => b | none => [] }

/-- The mutable state of `RawInputLogger`: the (already lowercased) device
filter and the handle-keyed device cache. -/
structure LoggerState where
  device_filter : Option String
  device_cache : List (Nat × DeviceState)

/-- `RawInputLogger.__init__` from the source:
`device_filter.lower() if device_filter else None` and an empty cache. -/
def logger_init (device_filter : Option String) : LoggerState :=
  { device_filter := match device_filter with
      | none => none
      | some f => if f = "" then none else some (py_lower f)
    device_cache := [] }

/-- `RawInputLogger.get_device_state` from the source: serve a cache hit;
else construct the `DeviceState`, drop it (uncached) when the name filter
rejects it, cache and return it otherwise.  The third component is a ghost
observation counting how many times `_match_filter` was evaluated during
this call (0 on a cache hit, 1 on a miss); the first two components are the
translation of the source. -/
def get_device_state (env : OsEnv) (st : LoggerState) (h : Nat) :
    Option DeviceState × LoggerState × Nat :=
  match assoc_get h st.device_cache with
  | some d => (some d, st, 0)
  | none =>
    let d := DeviceState.create env h
    if _match_filter st.device_filter d.name then
      (some d, { st with device_cache := dict_set h d st.device_cache }, 1)
    else (none, st, 1)

/-- One row as assembled in the loop of `handle_wm_input` (the fields that
depend on the report; timestamps and device identity are constants of the
enclosing event and are omitted). -/
structure Row where
  report_size : Nat
  report : List Nat
  axes : List (String × AxisReading)
  buttons : List Nat
deriving DecidableEq, Repr

/-- The body of the per-report loop of `handle_wm_input`: decode only when
the preparsed data is present and the value-capability list is non-empty,
and degrade the decode to empty axes/buttons when it raises.  `runDecode`
models the execution of `decode_hid_report` on this report, `Except.error`
being a raised exception (the `try`/`except Exception` of the source). -/
def process_report (ds : DeviceState)
    (runDecode : List Nat → Except Unit (List (String × AxisReading) × List Nat))
    (report : List Nat) : Row :=
  let ab :=
    if ds.preparsed.isSome && !ds.value_caps.isEmpty then
      match runDecode report with
      | Except.ok ab => ab
      | Except.error _ => ([], [])
    else ([], [])
  { report_size := report.length, report := report, axes := ab.1, buttons := ab.2 }

/-- The whole per-report loop of `handle_wm_input`: one emitted row per
segmented report. -/
def process_reports (ds : DeviceState)
    (runDecode : List Nat → Except Unit (List (String × AxisReading) × List Nat))
    (reports : List (List Nat)) : List Row :=
  reports.map (process_report ds runDecode)

/-- `handle_wm_input` from the raw-buffer extraction on: segment the blob,
resolve the device state (dropping the event when the filter rejected the
device), then run the per-report loop.  The `Nat` component accumulates the
ghost `_match_filter` evaluation count of `get_device_state`. -/
def handle_event (env : OsEnv)
    (runDecode : DeviceState → List Nat →
      Except Unit (List (String × AxisReading) × List Nat))
    (st : LoggerState) (h : Nat) (raw : List Nat) (size_hid count : Nat) :
    List Row × LoggerState × Nat :=
  let reports := parse_report_bytes raw size_hid count
  match get_device_state env st h with
  | (none, st', k) => ([], st', k)
  | (some ds, st', k) => (process_reports ds (runDecode ds) reports, st', k)

/-- A sequence of `WM_INPUT` events from one handle, processed in order:
concatenated rows, final logger state, total ghost filter-check count. -/
def handle_events (env : OsEnv)
    (runDecode : DeviceState → List Nat →
      Except Unit (List (String × AxisReading) × List Nat))
    (h : Nat) :
    LoggerState → List (List Nat × Nat × Nat) → List Row × LoggerState × Nat
  | st, [] => ([], st, 0)
  | st, e :: rest =>
    let r1 := handle_event env runDecode st h e.1 e.2.1 e.2.2
    let r2 := handle_events env runDecode h r1.2.1 rest
    (r1.1 ++ r2.1, r2.2.1, r1.2.2 + r2.2.2)

/-- C10: when a device's value-capability list is empty, the per-report loop
skips decoding entirely — whatever the decode function would do, and even
with preparsed data present and button capabilities available — and each
report is still emitted as a record with empty axes and buttons. -/
theorem no_value_caps_skips_decode (ds : DeviceState)
    (runDecode : List Nat → Except Unit (List (String × AxisReading) × List Nat))
    (reports : List (List Nat)) (hvc : ds.value_caps = []) :
    process_reports ds runDecode reports =
      reports.map (fun r =>
        { report_size := r.length, report := r, axes := [], buttons := [] }) := by
  have hone : ∀ r, process_report ds runDecode r =
      { report_size := r.length, report := r, axes := [], buttons := [] } := by
    intro r
    unfold process_report
    rw [hvc]
    simp
  simp [process_reports, hone]

/-- A device state with preparsed data and a button capability but no value
capabilities. -/
def ds_no_values : DeviceState :=
  { handle := 1, name := "pad", info := none, preparsed := some (pre_const 0),
    caps := some ⟨0, 1⟩, value_caps := [],
    button_caps := [⟨9, 0, false, 0, 0, 1⟩] }

/-- C10 witness: even a decode function that would return axes and buttons
is ignored for `ds_no_values`; the emitted record is empty. -/
theorem no_value_caps_skips_decode_witness :
    process_reports ds_no_values
      (fun _ => Except.ok ([("x", ⟨1, none, 0, 1⟩)], [5])) [[0xAA]] =
      [{ report_size := 1, report := [0xAA], axes := [], buttons := [] }] :=
  no_value_caps_skips_decode ds_no_values
    (fun _ => Except.ok ([("x", ⟨1, none, 0, 1⟩)], [5])) [[0xAA]] rfl

/-- A device state with preparsed data and one value capability (the decode
branch of the per-report loop is taken). -/
def ds_active : DeviceState :=
  { handle := 2, name := "stick", info := some (1, 4),
    preparsed := some (pre_const 0), caps := some ⟨1, 0⟩,
    value_caps := [x_full_range_cap], button_caps := [] }

/-- C4: a decode fault on one report of a batch degrades exactly that
report's record to empty axes and buttons — the record is still emitted —
while every report of the batch is processed independently by the same
per-report function, so subsequent reports are unaffected. -/
theorem decode_fault_isolated (ds : DeviceState)
    (runDecode : List Nat → Except Unit (List (String × AxisReading) × List Nat))
    (reports : List (List Nat)) (r : List Nat)
    (_hr : r ∈ reports) (he : runDecode r = Except.error ()) :
    (process_reports ds runDecode reports).length = reports.length ∧
    process_report ds runDecode r =
      { report_size := r.length, report := r, axes := [], buttons := [] } ∧
    process_reports ds runDecode reports =
      reports.map (process_report ds runDecode) := by
  refine ⟨by simp [process_reports], ?_, rfl⟩
  unfold process_report
  rw [he]
  simp

/-- C4 witness: with a decode that raises on every report, a two-report
batch still yields two records, the faulting report's record being empty. -/
theorem decode_fault_isolated_witness :
    (process_reports ds_active (fun _ => Except.error ()) [[1], [2]]).length =
      ([[1], [2]] : List (List Nat)).length ∧
    process_report ds_active (fun _ => Except.error ()) [1] =
      { report_size := 1, report := [1], axes := [], buttons := [] } ∧
    process_reports ds_active (fun _ => Except.error ()) [[1], [2]] =
      [[1], [2]].map (process_report ds_active (fun _ => Except.error ())) :=
  decode_fault_isolated ds_active (fun _ => Except.error ()) [[1], [2]] [1]
    (by simp) rfl

/-- C7 (amended): for a handle absent from the cache whose resolved name the
filter rejects, `get_device_state` returns `none` after exactly one filter
evaluation and leaves the logger state (hence the cache) unchanged, and any
sequence of events from that handle yields no rows, leaves the state
unchanged, and evaluates the filter once per event — `evs.length` times in
total, not once per handle. -/
theorem filter_nonmatching_drops_all_events (env : OsEnv)
    (runDecode : DeviceState → List Nat →
      Except Unit (List (String × AxisReading) × List Nat))
    (st : LoggerState) (h : Nat)
    (hmiss : assoc_get h st.device_cache = none)
    (hnm : _match_filter st.device_filter (env.get_device_name h) = false) :
    get_device_state env st h = (none, st, 1) ∧
    ∀ evs : List (List Nat × Nat × Nat),
      handle_events env runDecode h st evs = ([], st, evs.length) := by
  have hgds : get_device_state env st h = (none, st, 1) := by
    have hname : _match_filter st.device_filter (DeviceState.create env h).name =
        false := hnm
    unfold get_device_state
    simp only [hmiss]
    simp [hname]
  refine ⟨hgds, ?_⟩
  intro evs
  induction evs with
  | nil => rfl
  | cons e rest ih =>
    simp only [handle_events, handle_event, hgds]
    rw [ih]
    simp [Nat.add_comm]

/-- An OS environment in which every handle resolves to the name
"Logitech Gamepad" and yields no preparsed data. -/
def env_logitech : OsEnv :=
  { get_device_name := fun _ => "Logitech Gamepad"
    get_device_info := fun _ => none
    get_preparsed_data := fun _ => none }

/-- The logger as constructed with `--device Thrustmaster`. -/
def logger_thrustmaster : LoggerState := logger_init (some "Thrustmaster")

/-- C7 witness: the filter "Thrustmaster" against the device
"Logitech Gamepad": `get_device_state` returns `none` without caching, and
two events from the handle produce no rows and two filter evaluations. -/
theorem filter_nonmatching_drops_all_events_witness :
    get_device_state env_logitech logger_thrustmaster 42 =
      (none, logger_thrustmaster, 1) ∧
    handle_events env_logitech (fun _ _ => Except.ok ([], [])) 42
      logger_thrustmaster [([], 0, 0), ([], 0, 0)] =
      ([], logger_thrustmaster, 2) := by
  have h := filter_nonmatching_drops_all_events env_logitech
    (fun _ _ => Except.ok ([], [])) logger_thrustmaster 42 rfl (by decide)
  exact ⟨h.1, h.2 [([], 0, 0), ([], 0, 0)]⟩

/-- C7 counterexample: two events from a handle whose name the filter
rejects evaluate the filter twice — once per event, not once per handle as
claimed. -/
theorem filter_checked_once_per_event_not_per_handle :
    (handle_events env_logitech (fun _ _ => Except.ok ([], [])) 42
      logger_thrustmaster [([], 0, 0), ([], 0, 0)]).1 = [] ∧
    (handle_events env_logitech (fun _ _ => Except.ok ([], [])) 42
      logger_thrustmaster [([], 0, 0), ([], 0, 0)]).2.2 = 2 ∧
    (2 : Nat) ≠ 1 := by
  refine ⟨?_, ?_, by decide⟩
  · rfl
  · rfl
